import Mathlib

/-!
Verification development for the rhasspy-hermes message dispatch and
topic-routing engine (Python package `rhasspyhermes`).

The Python source is shallowly embedded:

* MQTT topics are `String`s; the compiled `re` topic patterns of the message
  classes are embedded as executable string matchers.  Python `re.match` with
  a pattern of the shape `^lit/([^/]+)/.../lit$` is decomposed with
  `String.splitOn "/"`; the Python `$` anchor also matches just before a
  single newline at the very end of the string, and `.` matches every
  character except a newline, which is modelled explicitly.
* JSON values are the inductive `Json`; a decoded `json.loads` payload is an
  association list of key/value pairs (`Json.obj`).  Serialisation to and
  from the JSON text is elided: a `RawPayload.jsonOk j` stands for a byte
  payload whose `json.loads` yields `j`, `RawPayload.jsonBad` for a payload
  that is not valid JSON, and `RawPayload.bytes` for opaque binary data.
* The `dataclasses_json` encoding (`Message.payload` / `to_dict`, letter
  case CAMEL) and decoding (`from_dict`) of the embedded dataclasses are
  modelled field by field: encoding writes every declared field under its
  camelCase wire name, decoding looks each declared field up by its wire
  name, takes the dataclass default when the key is missing, and ignores
  unknown keys.  Decoding yields `none` where the Python code raises
  (missing required field, value of the wrong shape).
* Python `set`s of strings are modelled as duplicate-free `List String` in
  insertion order; iteration order of a Python set is unspecified, which is
  material for `HermesClient.subscribed_types` (see the C2 theorems).
-/

namespace RhasspyHermes

/-- Newline character, written via its code point so that the Python
semantics of `.` and `$` in `re` patterns can be stated explicitly. -/
def nlChar : Char := Char.ofNat 10

/-- Newline as a one-character string. -/
def nlStr : String := String.mk [nlChar]

/-- Split a character list at every slash, exactly as Python
`topic.split("/")` does on the string: the empty string yields one empty
segment, and adjacent slashes yield empty segments. -/
def splitSlash : List Char → List (List Char)
  | [] => [[]]
  | c :: cs =>
    let r := splitSlash cs
    if c = '/' then [] :: r
    else
      match r with
      | [] => [[c]]
      | seg :: rest => (c :: seg) :: rest

/-- Python `re` semantics of a trailing literal before `$`: the final
segment must be the literal itself, or the literal followed by one final
newline (`$` matches at the end of the string and just before a newline at
the end of the string). -/
def dollarLit (lit : String) (seg : List Char) : Bool :=
  seg = lit.data || seg = lit.data ++ [nlChar]

/-- JSON values as decoded by `json.loads`.  Numbers are not needed by any
embedded message field and are represented opaquely by an integer. -/
inductive Json where
  | null : Json
  | bool (b : Bool) : Json
  | num (n : Int) : Json
  | str (s : String) : Json
  | arr (xs : List Json) : Json
  | obj (kvs : List (String × Json)) : Json

/-- Lookup of a key in a decoded JSON object (Python `dict.get`): first
binding of the key, `none` when the key is absent. -/
def jlookup (kvs : List (String × Json)) (key : String) : Option Json :=
  match kvs with
  | [] => none
  | (k, v) :: rest => if k = key then some v else jlookup rest key

/-- Raw MQTT payload as seen by `HermesClient.parse_mqtt_message`:
`bytes` is opaque binary data (audio), `jsonOk j` stands for text whose
`json.loads` yields `j`, `jsonBad` for text that fails to parse. -/
inductive RawPayload where
  | bytes (bs : List Nat) : RawPayload
  | jsonOk (j : Json) : RawPayload
  | jsonBad : RawPayload

/-! ## Topic pattern matchers

Each `TOPIC_PATTERN` of the source is embedded as a function returning the
list of captured groups (`none` when `re.match` fails).  The patterns are
all of the form `^seg/.../seg$` where a segment is a literal or `([^/]+)`,
except `NluIntent.TOPIC_PATTERN` which uses `(.+)`.
-/

/-- Match `^hermes/audioServer/([^/]+)/audioFrame$`
(`AudioFrame.TOPIC_PATTERN`, audioserver.py line 24). -/
def audioFrameMatch (topic : String) : Option String :=
  match splitSlash topic.data with
  | [a, b, s, last] =>
    if a = "hermes".data && b = "audioServer".data && !s.isEmpty &&
        dollarLit "audioFrame" last
    then some (String.mk s) else none
  | _ => none

/-- Match `^hermes/audioServer/([^/]+)/([^/]+)/audioSessionFrame$`
(`AudioSessionFrame.TOPIC_PATTERN`, audioserver.py lines 314-316). -/
def audioSessionFrameMatch (topic : String) : Option (String × String) :=
  match splitSlash topic.data with
  | [a, b, s, sess, last] =>
    if a = "hermes".data && b = "audioServer".data && !s.isEmpty &&
        !sess.isEmpty && dollarLit "audioSessionFrame" last
    then some (String.mk s, String.mk sess) else none
  | _ => none

/-- Match `^hermes/audioServer/([^/]+)/playBytes/([^/]+)$`
(`AudioPlayBytes.TOPIC_PATTERN`, audioserver.py line 111).  The final
`([^/]+)` is greedy and may itself end with a newline, so the last segment
is captured whole. -/
def audioPlayBytesMatch (topic : String) : Option (String × String) :=
  match splitSlash topic.data with
  | [a, b, s, c, r] =>
    if a = "hermes".data && b = "audioServer".data && !s.isEmpty &&
        c = "playBytes".data && !r.isEmpty
    then some (String.mk s, String.mk r) else none
  | _ => none

/-- Match `^rhasspy/asr/([^/]+)/([^/]+)/audioCaptured$`
(`AsrAudioCaptured.TOPIC_PATTERN`, asr.py line 343). -/
def asrAudioCapturedMatch (topic : String) : Option (String × String) :=
  match splitSlash topic.data with
  | [a, b, s, sess, last] =>
    if a = "rhasspy".data && b = "asr".data && !s.isEmpty && !sess.isEmpty &&
        dollarLit "audioCaptured" last
    then some (String.mk s, String.mk sess) else none
  | _ => none

/-- Match `^hermes/hotword/([^/]+)/detected$`
(`HotwordDetected.TOPIC_PATTERN`, wake.py line 196). -/
def hotwordDetectedMatch (topic : String) : Option String :=
  match splitSlash topic.data with
  | [a, b, w, last] =>
    if a = "hermes".data && b = "hotword".data && !w.isEmpty &&
        dollarLit "detected" last
    then some (String.mk w) else none
  | _ => none

/-- Strip an anchored literal prefix (the `^hermes/intent/` part of a
pattern) from a character list, returning the remainder. -/
def dropLit : List Char → List Char → Option (List Char)
  | [], r => some r
  | _ :: _, [] => none
  | p :: ps, c :: cs => if c = p then dropLit ps cs else none

/-- Match `^hermes/intent/(.+)$` (`NluIntent.TOPIC_PATTERN`, nlu.py line
316).  Python `.` matches every character except a newline, so the greedy
`(.+)` captures the whole remainder when it is non-empty and newline-free;
`$` also matches just before one newline at the end of the string, in which
case the captured group excludes that final newline. -/
def nluIntentMatch (topic : String) : Option String :=
  match dropLit "hermes/intent/".data topic.data with
  | none => none
  | some r =>
    if !r.isEmpty && !(r.contains nlChar) then some (String.mk r)
    else
      let r1 := r.dropLast
      if r.getLast? = some nlChar && !r1.isEmpty && !(r1.contains nlChar) then
        some (String.mk r1)
      else none

/-! ## Topic rendering (the classmethod `topic(**kwargs)` of each class)

Keyword arguments are modelled as `Option String`; `kwargs.get(name, d)`
is `arg.getD d`.
-/

/-- `AudioFrame.topic` (audioserver.py lines 42-46): a missing `site_id`
renders the single-level wildcard `+`. -/
def AudioFrame.topic (site_id : Option String) : String :=
  "hermes/audioServer/" ++ site_id.getD "+" ++ "/audioFrame"

/-- `AudioSessionFrame.topic` (audioserver.py lines 339-344). -/
def AudioSessionFrame.topic (site_id session_id : Option String) : String :=
  "hermes/audioServer/" ++ site_id.getD "+" ++ "/" ++ session_id.getD "+" ++
    "/audioSessionFrame"

/-- `AudioPlayBytes.topic` (audioserver.py lines 129-134): a missing
`request_id` renders the multi-level wildcard `#`. -/
def AudioPlayBytes.topic (site_id request_id : Option String) : String :=
  "hermes/audioServer/" ++ site_id.getD "+" ++ "/playBytes/" ++ request_id.getD "#"

/-- `AsrAudioCaptured.topic` (asr.py lines 366-371).  The source reads
`session_id = kwargs.get("site_id", "+")` on line 370, so the session
position of the rendered topic is filled from the `site_id` keyword and the
`session_id` keyword is ignored; the embedding reproduces this verbatim. -/
def AsrAudioCaptured.topic (site_id session_id : Option String) : String :=
  let s := site_id.getD "+"
  let sess := site_id.getD "+"
  "rhasspy/asr/" ++ s ++ "/" ++ sess ++ "/audioCaptured"

/-- `HotwordDetected.topic` (wake.py lines 241-262). -/
def HotwordDetected.topic (wakeword_id : Option String) : String :=
  "hermes/hotword/" ++ wakeword_id.getD "+" ++ "/detected"

/-- `NluIntent.topic` (nlu.py lines 378-397): a missing `intent_name`
renders the multi-level wildcard `#`. -/
def NluIntent.topic (intent_name : Option String) : String :=
  "hermes/intent/" ++ intent_name.getD "#"

/-! ## Per-class topic accessors -/

/-- `AudioFrame.is_topic` (audioserver.py lines 55-58). -/
def AudioFrame.is_topic (topic : String) : Bool :=
  (audioFrameMatch topic).isSome

/-- `AudioFrame.get_site_id` (audioserver.py lines 48-53); the failed-assert
path is modelled as `none`. -/
def AudioFrame.get_site_id (topic : String) : Option String :=
  audioFrameMatch topic

/-- `AudioSessionFrame.is_topic` (audioserver.py lines 360-363). -/
def AudioSessionFrame.is_topic (topic : String) : Bool :=
  (audioSessionFrameMatch topic).isSome

/-- `AudioSessionFrame.get_site_id` (audioserver.py lines 346-351). -/
def AudioSessionFrame.get_site_id (topic : String) : Option String :=
  (audioSessionFrameMatch topic).map (·.1)

/-- `AudioSessionFrame.get_session_id` (audioserver.py lines 353-358). -/
def AudioSessionFrame.get_session_id (topic : String) : Option String :=
  (audioSessionFrameMatch topic).map (·.2)

/-- `AudioPlayBytes.is_topic` (audioserver.py lines 150-153). -/
def AudioPlayBytes.is_topic (topic : String) : Bool :=
  (audioPlayBytesMatch topic).isSome

/-- `AudioPlayBytes.get_site_id` (audioserver.py lines 136-141). -/
def AudioPlayBytes.get_site_id (topic : String) : Option String :=
  (audioPlayBytesMatch topic).map (·.1)

/-- `AsrAudioCaptured.is_topic` (asr.py lines 373-376). -/
def AsrAudioCaptured.is_topic (topic : String) : Bool :=
  (asrAudioCapturedMatch topic).isSome

/-- `AsrAudioCaptured.get_site_id` (asr.py lines 378-383). -/
def AsrAudioCaptured.get_site_id (topic : String) : Option String :=
  (asrAudioCapturedMatch topic).map (·.1)

/-- `AsrAudioCaptured.get_session_id` (asr.py lines 385-390): group 2 of
the match. -/
def AsrAudioCaptured.get_session_id (topic : String) : Option String :=
  (asrAudioCapturedMatch topic).map (·.2)

/-- `HotwordDetected.is_topic` (wake.py). -/
def HotwordDetected.is_topic (topic : String) : Bool :=
  (hotwordDetectedMatch topic).isSome

/-- `HotwordDetected.get_wakeword_id` (wake.py lines 264-286). -/
def HotwordDetected.get_wakeword_id (topic : String) : Option String :=
  hotwordDetectedMatch topic

/-- `NluIntent.is_topic` (nlu.py lines 406-409). -/
def NluIntent.is_topic (topic : String) : Bool :=
  (nluIntentMatch topic).isSome

/-- `NluIntent.get_intent_name` (nlu.py lines 399-404). -/
def NluIntent.get_intent_name (topic : String) : Option String :=
  nluIntentMatch topic

/-! ## Embedded JSON message dataclasses

Four representative JSON dataclasses are embedded with their full field
lists: `HandleToggleOn` (handle.py), `AsrToggleOn`, `AsrStartListening`
(asr.py) and `NluQuery` (nlu.py).  Fields appear in the order declared in
the source, with the source defaults.
-/

/-- `AsrToggleReason` (asr.py lines 11-32), a `str` enum. -/
inductive AsrToggleReason where
  | unknown
  | dialogueSession
  | playAudio
  | ttsSay
deriving DecidableEq

/-- Wire value of an `AsrToggleReason` (the enum member values). -/
def AsrToggleReason.wireValue : AsrToggleReason → String
  | .unknown => ""
  | .dialogueSession => "dialogueSession"
  | .playAudio => "playAudio"
  | .ttsSay => "ttsSay"

/-- Decode an `AsrToggleReason` from its wire value (`AsrToggleReason(s)`
in Python; `none` models the `ValueError` for an unknown value). -/
def AsrToggleReason.ofWire (s : String) : Option AsrToggleReason :=
  if s = "" then some .unknown
  else if s = "dialogueSession" then some .dialogueSession
  else if s = "playAudio" then some .playAudio
  else if s = "ttsSay" then some .ttsSay
  else none

/-- `HandleToggleOn` (handle.py lines 7-63). -/
structure HandleToggleOn where
  site_id : String := "default"
deriving DecidableEq

/-- `AsrToggleOn` (asr.py lines 35-59). -/
structure AsrToggleOn where
  site_id : String := "default"
  reason : AsrToggleReason := .unknown
deriving DecidableEq

/-- `AsrStartListening` (asr.py lines 89-134). -/
structure AsrStartListening where
  site_id : String := "default"
  session_id : Option String := none
  lang : Option String := none
  stop_on_silence : Bool := true
  send_audio_captured : Bool := false
  wakeword_id : Option String := none
  intent_filter : Option (List String) := none
deriving DecidableEq

/-- `NluQuery` (nlu.py lines 13-123). -/
structure NluQuery where
  input : String
  site_id : String := "default"
  id : Option String := none
  intent_filter : Option (List String) := none
  session_id : Option String := none
  wakeword_id : Option String := none
  lang : Option String := none
deriving DecidableEq

/-! ## dataclasses_json encode/decode model

`Message.payload` (base.py lines 20-37) serialises every declared field
under its camelCase wire name (`dataclass_json(letter_case=LetterCase.CAMEL)`,
base.py line 11); `None` becomes JSON `null`.  `from_dict` looks each
declared field up by its wire name, uses the dataclass default when the key
is missing, raises on a missing required field, and ignores unknown keys.
A present value whose shape does not fit the field is modelled as a decode
failure (`none`); `dataclasses_json` itself performs no validation there
and would build an ill-typed instance, a corner no claim depends on.
-/

/-- Encode an optional string field (`None` becomes `null`). -/
def encOptStr : Option String → Json
  | none => .null
  | some s => .str s

/-- Encode an optional list-of-strings field. -/
def encOptStrList : Option (List String) → Json
  | none => .null
  | some xs => .arr (xs.map .str)

/-- Decode a required string field from its looked-up value: a missing key
models the Python `KeyError`. -/
def decStrReq : Option Json → Option String
  | some (.str s) => some s
  | _ => none

/-- Decode a string field with a default: the default is used when the key
is missing. -/
def decStrDef (v : Option Json) (dflt : String) : Option String :=
  match v with
  | some (.str s) => some s
  | none => some dflt
  | some _ => none

/-- Decode an optional string field (default `None`). -/
def decOptStr : Option Json → Option (Option String)
  | some (.str s) => some (some s)
  | some .null => some none
  | none => some none
  | some _ => none

/-- Decode a boolean field with a default. -/
def decBoolDef (v : Option Json) (dflt : Bool) : Option Bool :=
  match v with
  | some (.bool b) => some b
  | none => some dflt
  | some _ => none

/-- Decode a JSON array of strings. -/
def decStrArr : List Json → Option (List String)
  | [] => some []
  | .str s :: rest => (decStrArr rest).map (s :: ·)
  | _ => none

/-- Decode an optional list-of-strings field (default `None`). -/
def decOptStrList : Option Json → Option (Option (List String))
  | some (.arr xs) => (decStrArr xs).map some
  | some .null => some none
  | none => some none
  | some _ => none

/-- Decode an `AsrToggleReason` field (default `UNKNOWN`). -/
def decReasonDef : Option Json → Option AsrToggleReason
  | some (.str s) => AsrToggleReason.ofWire s
  | none => some .unknown
  | some _ => none

/-- Wire dictionary of `HandleToggleOn.payload()` (camelCase keys). -/
def HandleToggleOn.to_dict (m : HandleToggleOn) : List (String × Json) :=
  [("siteId", .str m.site_id)]

/-- Model of `HandleToggleOn.from_dict`. -/
def HandleToggleOn.from_dict (kvs : List (String × Json)) : Option HandleToggleOn := do
  let site ← decStrDef (jlookup kvs "siteId") "default"
  pure { site_id := site }

/-- Wire dictionary of `AsrToggleOn.payload()`. -/
def AsrToggleOn.to_dict (m : AsrToggleOn) : List (String × Json) :=
  [("siteId", .str m.site_id), ("reason", .str m.reason.wireValue)]

/-- Model of `AsrToggleOn.from_dict`. -/
def AsrToggleOn.from_dict (kvs : List (String × Json)) : Option AsrToggleOn := do
  let site ← decStrDef (jlookup kvs "siteId") "default"
  let reason ← decReasonDef (jlookup kvs "reason")
  pure { site_id := site, reason := reason }

/-- Wire dictionary of `AsrStartListening.payload()`. -/
def AsrStartListening.to_dict (m : AsrStartListening) : List (String × Json) :=
  [("siteId", .str m.site_id),
   ("sessionId", encOptStr m.session_id),
   ("lang", encOptStr m.lang),
   ("stopOnSilence", .bool m.stop_on_silence),
   ("sendAudioCaptured", .bool m.send_audio_captured),
   ("wakewordId", encOptStr m.wakeword_id),
   ("intentFilter", encOptStrList m.intent_filter)]

/-- Model of `AsrStartListening.from_dict`. -/
def AsrStartListening.from_dict (kvs : List (String × Json)) :
    Option AsrStartListening := do
  let site ← decStrDef (jlookup kvs "siteId") "default"
  let sess ← decOptStr (jlookup kvs "sessionId")
  let lang ← decOptStr (jlookup kvs "lang")
  let stop ← decBoolDef (jlookup kvs "stopOnSilence") true
  let send ← decBoolDef (jlookup kvs "sendAudioCaptured") false
  let wake ← decOptStr (jlookup kvs "wakewordId")
  let filt ← decOptStrList (jlookup kvs "intentFilter")
  pure { site_id := site, session_id := sess, lang := lang,
         stop_on_silence := stop, send_audio_captured := send,
         wakeword_id := wake, intent_filter := filt }

/-- Wire dictionary of `NluQuery.payload()`. -/
def NluQuery.to_dict (m : NluQuery) : List (String × Json) :=
  [("input", .str m.input),
   ("siteId", .str m.site_id),
   ("id", encOptStr m.id),
   ("intentFilter", encOptStrList m.intent_filter),
   ("sessionId", encOptStr m.session_id),
   ("wakewordId", encOptStr m.wakeword_id),
   ("lang", encOptStr m.lang)]

/-- Model of `NluQuery.from_dict`; `input` is required (no default). -/
def NluQuery.from_dict (kvs : List (String × Json)) : Option NluQuery := do
  let inp ← decStrReq (jlookup kvs "input")
  let site ← decStrDef (jlookup kvs "siteId") "default"
  let id ← decOptStr (jlookup kvs "id")
  let filt ← decOptStrList (jlookup kvs "intentFilter")
  let sess ← decOptStr (jlookup kvs "sessionId")
  let wake ← decOptStr (jlookup kvs "wakewordId")
  let lang ← decOptStr (jlookup kvs "lang")
  pure { input := inp, site_id := site, id := id, intent_filter := filt,
         session_id := sess, wakeword_id := wake, lang := lang }

/-! ## Message-type registry and the dispatch router

`MsgTypeId` enumerates the embedded message classes; the functions below
are the classmethod tables `is_topic`, `is_binary_payload`,
`is_site_in_topic`, `is_session_in_topic`, `get_site_id`, `get_session_id`,
`from_dict` used generically by `HermesClient.parse_mqtt_message`
(client.py lines 276-324).  Classes that inherit a method from `Message`
(base.py) get the base behaviour: `is_topic` compares with the fixed
`cls.topic()` string, the flags are `False`, the accessors return `None`.
-/

/-- Identifiers of the embedded message classes. -/
inductive MsgTypeId where
  | handleToggleOn
  | nluQuery
  | asrToggleOn
  | asrStartListening
  | audioFrame
  | audioSessionFrame
  | audioPlayBytes
  | asrAudioCaptured
deriving DecidableEq

/-- A decoded message instance (one constructor per embedded class; the
binary classes store the raw payload as their `wav_bytes` field). -/
inductive Msg where
  | handleToggleOn (m : HandleToggleOn)
  | nluQuery (m : NluQuery)
  | asrToggleOn (m : AsrToggleOn)
  | asrStartListening (m : AsrStartListening)
  | audioFrame (wav_bytes : RawPayload)
  | audioSessionFrame (wav_bytes : RawPayload)
  | audioPlayBytes (wav_bytes : RawPayload)
  | asrAudioCaptured (wav_bytes : RawPayload)

/-- Classmethod `is_topic` of each embedded class.  The four JSON classes
inherit `Message.is_topic` (base.py line 179): equality with the fixed
topic string. -/
def MsgTypeId.is_topic : MsgTypeId → String → Bool
  | .handleToggleOn, t => t = "rhasspy/handle/toggleOn"
  | .nluQuery, t => t = "hermes/nlu/query"
  | .asrToggleOn, t => t = "hermes/asr/toggleOn"
  | .asrStartListening, t => t = "hermes/asr/startListening"
  | .audioFrame, t => AudioFrame.is_topic t
  | .audioSessionFrame, t => AudioSessionFrame.is_topic t
  | .audioPlayBytes, t => AudioPlayBytes.is_topic t
  | .asrAudioCaptured, t => AsrAudioCaptured.is_topic t

/-- Classmethod `is_binary_payload` (base default `False`). -/
def MsgTypeId.is_binary_payload : MsgTypeId → Bool
  | .audioFrame | .audioSessionFrame | .audioPlayBytes | .asrAudioCaptured => true
  | _ => false

/-- Classmethod `is_site_in_topic` (base default `False`). -/
def MsgTypeId.is_site_in_topic : MsgTypeId → Bool
  | .audioFrame | .audioSessionFrame | .audioPlayBytes | .asrAudioCaptured => true
  | _ => false

/-- Classmethod `is_session_in_topic` (base default `False`;
`AudioPlayBytes` does not override it). -/
def MsgTypeId.is_session_in_topic : MsgTypeId → Bool
  | .audioSessionFrame | .asrAudioCaptured => true
  | _ => false

/-- Classmethod `get_site_id` (base default `None`). -/
def MsgTypeId.get_site_id : MsgTypeId → String → Option String
  | .audioFrame, t => AudioFrame.get_site_id t
  | .audioSessionFrame, t => AudioSessionFrame.get_site_id t
  | .audioPlayBytes, t => AudioPlayBytes.get_site_id t
  | .asrAudioCaptured, t => AsrAudioCaptured.get_site_id t
  | _, _ => none

/-- Classmethod `get_session_id` (base default `None`). -/
def MsgTypeId.get_session_id : MsgTypeId → String → Option String
  | .audioSessionFrame, t => AudioSessionFrame.get_session_id t
  | .asrAudioCaptured, t => AsrAudioCaptured.get_session_id t
  | _, _ => none

/-- Binary constructor call `message_type(payload)` (client.py line 300);
`none` for the JSON classes, which are never constructed this way. -/
def MsgTypeId.binCtor : MsgTypeId → RawPayload → Option Msg
  | .audioFrame, p => some (.audioFrame p)
  | .audioSessionFrame, p => some (.audioSessionFrame p)
  | .audioPlayBytes, p => some (.audioPlayBytes p)
  | .asrAudioCaptured, p => some (.asrAudioCaptured p)
  | _, _ => none

/-- Classmethod `from_dict` on a decoded JSON object; `none` for the binary
classes, which are never decoded this way. -/
def MsgTypeId.from_dict : MsgTypeId → List (String × Json) → Option Msg
  | .handleToggleOn, kvs => (HandleToggleOn.from_dict kvs).map .handleToggleOn
  | .nluQuery, kvs => (NluQuery.from_dict kvs).map .nluQuery
  | .asrToggleOn, kvs => (AsrToggleOn.from_dict kvs).map .asrToggleOn
  | .asrStartListening, kvs => (AsrStartListening.from_dict kvs).map .asrStartListening
  | _, _ => none

/-- Value of `json_payload.get("siteId")` restricted to string values
(client.py line 307); a non-string `siteId` value is not modelled, no claim
depends on one. -/
def jgetSiteId (kvs : List (String × Json)) : Option String :=
  match jlookup kvs "siteId" with
  | some (.str s) => some s
  | _ => none

/-- Body of `HermesClient.parse_mqtt_message` for a type whose `is_topic`
holds (client.py lines 290-319): decode the payload, resolve site and
session ids, yield one triple and break.  An exception anywhere inside the
`try` (malformed JSON, missing required field) is caught by the surrounding
`except`, which ends the generator: nothing is yielded and no further types
are examined, hence the empty-list results. -/
def decodeMatched (ty : MsgTypeId) (topic : String) (payload : RawPayload) :
    List (Msg × Option String × Option String) :=
  if ty.is_binary_payload then
    match ty.binCtor payload with
    | some msg =>
      let site := if ty.is_site_in_topic then ty.get_site_id topic else none
      let sess := if ty.is_session_in_topic then ty.get_session_id topic else none
      [(msg, site, sess)]
    | none => []
  else
    match payload with
    | .jsonOk (.obj kvs) =>
      let site := if ty.is_site_in_topic then ty.get_site_id topic
                  else jgetSiteId kvs
      match ty.from_dict kvs with
      | some msg =>
        let sess := if ty.is_session_in_topic then ty.get_session_id topic else none
        [(msg, site, sess)]
      | none => []
    | _ => []

/-- `HermesClient.parse_mqtt_message` (client.py lines 276-324): iterate
the subscribed types in the iteration order of the stored set; the first
type whose `is_topic` holds is decoded by `decodeMatched` and no further
types are examined. -/
def parse_mqtt_message (topic : String) (payload : RawPayload) :
    List MsgTypeId → List (Msg × Option String × Option String)
  | [] => []
  | ty :: rest =>
    if ty.is_topic topic then decodeMatched ty topic payload
    else parse_mqtt_message topic payload rest

/-- `HermesClient.valid_site_id` (client.py lines 384-389).  Python
truthiness: `site_id and self.site_ids` is true only when `site_id` is a
non-`None`, non-empty string and the filter set is non-empty. -/
def valid_site_id (site_ids : List String) (site_id : Option String) : Bool :=
  match site_id with
  | some s => if s ≠ "" && site_ids ≠ [] then s ∈ site_ids else true
  | none => true

/-! ## Delivery loop

Model of the main loop of `HermesClient.handle_messages_async` (client.py
lines 197-274).  The fire-and-forget `on_raw_message` task and the
non-blocking `on_message` task are concurrency and are not modelled; the
blocking path is: parse, site-id filter, await
`publish_all(on_message_blocking(...))`.  The blocking handler is a
function returning the outbound messages it yields plus a flag saying
whether it then raises; a raise propagates to the loop's
`except Exception` clause, which logs and executes `break` (client.py
lines 272-274), ending the loop.
-/

/-- An inbound MQTT message. -/
structure InboundMsg where
  topic : String
  payload : RawPayload

/-- Observable events of the delivery loop: a message delivered to the
blocking handler, an outbound message published on its behalf, and the
loop breaking out of its `while` after a handler exception. -/
inductive DispatchEvent where
  | delivered (m : Msg) (site_id : Option String) (session_id : Option String)
      (topic : String)
  | published (out : Msg)
  | loopBroken

/-- Result of running `publish_all(on_message_blocking(...))`: the
messages published (in yield order) and whether the handler then raised. -/
def HandlerFun : Type :=
  Msg → Option String → Option String → String → List Msg × Bool

/-- Main loop of `handle_messages_async` over a queue of inbound messages
(client.py lines 209-274). -/
def handle_messages_async (subscribed : List MsgTypeId) (site_ids : List String)
    (handler : HandlerFun) : List InboundMsg → List DispatchEvent
  | [] => []
  | im :: rest =>
    match parse_mqtt_message im.topic im.payload subscribed with
    | [] => handle_messages_async subscribed site_ids handler rest
    | (msg, site, sess) :: _ =>
      if valid_site_id site_ids site then
        let r := handler msg site sess im.topic
        let evs := DispatchEvent.delivered msg site sess im.topic ::
          r.1.map DispatchEvent.published
        if r.2 then evs ++ [.loopBroken]
        else evs ++ handle_messages_async subscribed site_ids handler rest
      else handle_messages_async subscribed site_ids handler rest

/-! ## Subscription state machine

State of `HermesClient` relevant to subscribing (client.py lines 55-68),
with Python string sets modelled as duplicate-free lists in insertion
order.  Each operation returns the updated state together with the list of
topics passed to `self.mqtt_client.subscribe`, in order.
-/

/-- The subscription-related fields of `HermesClient`. -/
structure ClientState where
  is_connected : Bool
  pending_mqtt_topics : List String
  subscribed_topics : List String
  all_mqtt_topics : List String
deriving DecidableEq

/-- Fresh client (client.py `__init__`). -/
def initState : ClientState :=
  { is_connected := false, pending_mqtt_topics := [],
    subscribed_topics := [], all_mqtt_topics := [] }

/-- Python `set.add` on the list model. -/
def sinsert (xs : List String) (t : String) : List String :=
  if t ∈ xs then xs else xs ++ [t]

/-- Python `set.update` on the list model. -/
def sunion (xs ts : List String) : List String :=
  ts.foldl sinsert xs

/-- The `for topic in self.pending_mqtt_topics` loop of `subscribe_topics`
(client.py lines 111-118): add the topic to `all_mqtt_topics`, and if it is
not yet in `subscribed_topics`, call `mqtt_client.subscribe` and record it.
Returns (all, subscribed, emitted subscribe calls). -/
def subLoop : List String → List String → List String → List String →
    List String × List String × List String
  | [], all, subd, em => (all, subd, em)
  | t :: ts, all, subd, em =>
    let all2 := sinsert all t
    if t ∈ subd then subLoop ts all2 subd em
    else subLoop ts all2 (subd ++ [t]) (em ++ [t])

/-- `HermesClient.subscribe_topics` (client.py lines 104-120). -/
def subscribe_topics (s : ClientState) (topics : List String) :
    ClientState × List String :=
  let pending := sunion s.pending_mqtt_topics topics
  if s.is_connected then
    let r := subLoop pending s.all_mqtt_topics s.subscribed_topics []
    let s2 : ClientState :=
      { s with
        pending_mqtt_topics := []
        all_mqtt_topics := r.1
        subscribed_topics := r.2.1 }
    (s2, r.2.2)
  else
    ({ s with pending_mqtt_topics := pending }, [])

/-- `HermesClient.mqtt_on_connect` (client.py lines 150-168): mark
connected, clear `subscribed_topics`, move `all_mqtt_topics` into
`pending_mqtt_topics` and run `self.subscribe()`, which with no message
types reduces to `subscribe_topics()` with an empty topic list. -/
def mqtt_on_connect (s : ClientState) : ClientState × List String :=
  let s1 := { s with is_connected := true, subscribed_topics := [] }
  let s2 := { s1 with
    pending_mqtt_topics := sunion s1.pending_mqtt_topics s1.all_mqtt_topics }
  subscribe_topics s2 []

/-- `HermesClient.mqtt_on_disconnect` (client.py lines 170-183): mark
disconnected (the transport reconnect call is external). -/
def mqtt_on_disconnect (s : ClientState) : ClientState :=
  { s with is_connected := false }

/-- Operations that drive the subscription state machine. -/
inductive ClientOp where
  | connect
  | disconnect
  | subscribeTopics (ts : List String)
deriving DecidableEq

/-- One operation step: next state and emitted subscribe calls. -/
def stepClient (s : ClientState) : ClientOp → ClientState × List String
  | .connect => mqtt_on_connect s
  | .disconnect => (mqtt_on_disconnect s, [])
  | .subscribeTopics ts => subscribe_topics s ts

/-- Run a list of operations from a state, collecting all emitted
subscribe calls in order. -/
def runClient (s : ClientState) : List ClientOp → ClientState × List String
  | [] => (s, [])
  | op :: ops =>
    let r := stepClient s op
    let r2 := runClient r.1 ops
    (r2.1, r.2 ++ r2.2)

/-! ## Shared lemmas about the dispatch router -/

/-- A matched type yields at most one triple. -/
theorem decodeMatched_length_le_one (ty : MsgTypeId) (topic : String)
    (payload : RawPayload) : (decodeMatched ty topic payload).length ≤ 1 := by
  unfold decodeMatched
  repeat' split
  all_goals simp

/-- Defining equation of the router loop at a cons cell. -/
theorem parse_cons (topic : String) (payload : RawPayload) (ty : MsgTypeId)
    (rest : List MsgTypeId) :
    parse_mqtt_message topic payload (ty :: rest) =
      if ty.is_topic topic then decodeMatched ty topic payload
      else parse_mqtt_message topic payload rest := rfl

/-- Types whose `is_topic` rejects the topic are skipped by the router. -/
theorem parse_skip (topic : String) (payload : RawPayload)
    (pre tys : List MsgTypeId) (hpre : ∀ t ∈ pre, t.is_topic topic = false) :
    parse_mqtt_message topic payload (pre ++ tys) =
      parse_mqtt_message topic payload tys := by
  induction pre with
  | nil => rfl
  | cons p ps ih =>
    have hp : p.is_topic topic = false := hpre p (by simp)
    rw [List.cons_append, parse_cons, if_neg (by simp [hp])]
    exact ih fun t ht => hpre t (by simp [ht])

/-- The first matching type decides the result; later types are never
examined. -/
theorem parse_match_head (topic : String) (payload : RawPayload)
    (ty : MsgTypeId) (rest : List MsgTypeId) (hty : ty.is_topic topic = true) :
    parse_mqtt_message topic payload (ty :: rest) =
      decodeMatched ty topic payload := by
  rw [parse_cons, if_pos (by simp [hty])]

/-! ## Claim C1 -/

/-- C1: the claim states that for `AsrAudioCaptured`,
`get_session_id(topic(site_id=s, session_id=x))` returns `x`.  Evaluating
the embedded source at `site_id="siteA"`, `session_id="sessB"` shows the
defect of asr.py line 370 (`session_id = kwargs.get("site_id", "+")`): the
rendered topic carries the site id in the session position, and
`get_session_id` consequently returns `"siteA"`, not `"sessB"`. -/
theorem C1_asrAudioCaptured_session_defect :
    AsrAudioCaptured.topic (some "siteA") (some "sessB") =
      "rhasspy/asr/siteA/siteA/audioCaptured" ∧
    AsrAudioCaptured.get_session_id
        (AsrAudioCaptured.topic (some "siteA") (some "sessB")) = some "siteA" ∧
    some "siteA" ≠ some "sessB" := by
  refine ⟨rfl, ?_, by simp⟩
  rfl

/-! ## Claim C8 -/

/-- C8 counterexample: the claim states that rendering a publish topic
without a required placeholder fails with an `InvalidParameters` error.
The source raises nothing: `AudioFrame.topic()` and `NluIntent.topic()`
with no arguments return wildcard subscription topic strings. -/
theorem C8_counterexample :
    AudioFrame.topic none = "hermes/audioServer/+/audioFrame" ∧
    NluIntent.topic none = "hermes/intent/#" :=
  ⟨rfl, rfl⟩

/-- C8 amended: a missing placeholder does not fail; it renders as an MQTT
wildcard (`+` for single-level placeholders, `#` for
`NluIntent.intent_name` and `AudioPlayBytes.request_id`), and a supplied
placeholder is substituted verbatim. -/
theorem C8_wildcard_topics (s r i : String) :
    AudioFrame.topic none = "hermes/audioServer/+/audioFrame" ∧
    AudioFrame.topic (some s) = "hermes/audioServer/" ++ s ++ "/audioFrame" ∧
    NluIntent.topic none = "hermes/intent/#" ∧
    NluIntent.topic (some i) = "hermes/intent/" ++ i ∧
    AudioPlayBytes.topic (some s) none =
      "hermes/audioServer/" ++ s ++ "/playBytes/" ++ "#" ∧
    AudioPlayBytes.topic (some s) (some r) =
      "hermes/audioServer/" ++ s ++ "/playBytes/" ++ r ∧
    AsrAudioCaptured.topic none none = "rhasspy/asr/+/+/audioCaptured" :=
  ⟨rfl, rfl, rfl, rfl, rfl, rfl, rfl⟩

/-! ## Claim C7 -/

/-- C7 counterexample: the claim states that with a non-empty filter set,
a message whose resolved site id is present but not in the set is
discarded.  A present empty-string site id (`{"siteId": ""}` in the JSON
body) is not in the filter `{"kitchen"}`, yet `valid_site_id` accepts it,
because `site_id and self.site_ids` is false for the falsy empty string. -/
theorem C7_counterexample :
    valid_site_id ["kitchen"] (some "") = true ∧
    ("" ∈ (["kitchen"] : List String) → False) ∧
    (["kitchen"] : List String) ≠ [] := by
  refine ⟨rfl, by simp, by simp⟩

/-! ## Claim C2 -/

/-- C2 counterexample: the claim states that dispatch iterates the
subscribed message types in registration order, so which type wins is
deterministic.  `HermesClient.__init__` stores `subscribed_types` as a
Python `set` (client.py line 64), which records no registration order: the
two registration sequences below produce the same set, yet the topic
`hermes/audioServer/kitchen/playBytes/audioSessionFrame` is matched by both
`AudioPlayBytes` and `AudioSessionFrame` and the yielded triple differs
with the iteration order, so "first registered wins" cannot hold for both
sequences. -/
theorem C2_counterexample :
    ([MsgTypeId.audioPlayBytes, MsgTypeId.audioSessionFrame].toFinset =
      [MsgTypeId.audioSessionFrame, MsgTypeId.audioPlayBytes].toFinset) ∧
    parse_mqtt_message "hermes/audioServer/kitchen/playBytes/audioSessionFrame"
        (.bytes [0]) [MsgTypeId.audioPlayBytes, MsgTypeId.audioSessionFrame] ≠
      parse_mqtt_message "hermes/audioServer/kitchen/playBytes/audioSessionFrame"
        (.bytes [0]) [MsgTypeId.audioSessionFrame, MsgTypeId.audioPlayBytes] := by
  constructor
  · decide
  · have h1 : parse_mqtt_message
        "hermes/audioServer/kitchen/playBytes/audioSessionFrame" (.bytes [0])
        [MsgTypeId.audioPlayBytes, MsgTypeId.audioSessionFrame] =
        [(Msg.audioPlayBytes (.bytes [0]), some "kitchen", none)] := rfl
    have h2 : parse_mqtt_message
        "hermes/audioServer/kitchen/playBytes/audioSessionFrame" (.bytes [0])
        [MsgTypeId.audioSessionFrame, MsgTypeId.audioPlayBytes] =
        [(Msg.audioSessionFrame (.bytes [0]), some "kitchen", some "playBytes")] := rfl
    rw [h1, h2]
    simp

/-- C2 amended: the router iterates the subscribed types in the iteration
order of the stored Python set (an unspecified order that registration
order does not determine); for the first type in that order whose
`is_topic` holds it yields at most one triple and examines no further
types, so at most one typed message is produced per inbound message. -/
theorem C2_first_match_break :
    (∀ (topic : String) (payload : RawPayload) (types : List MsgTypeId),
      (parse_mqtt_message topic payload types).length ≤ 1) ∧
    (∀ (topic : String) (payload : RawPayload) (pre : List MsgTypeId)
        (ty : MsgTypeId) (post : List MsgTypeId),
      (∀ t ∈ pre, t.is_topic topic = false) → ty.is_topic topic = true →
      parse_mqtt_message topic payload (pre ++ ty :: post) =
        parse_mqtt_message topic payload [ty]) := by
  constructor
  · intro topic payload types
    induction types with
    | nil => simp [parse_mqtt_message]
    | cons ty rest ih =>
      unfold parse_mqtt_message
      split
      · exact decodeMatched_length_le_one ty topic payload
      · exact ih
  · intro topic payload pre ty post hpre hty
    rw [parse_skip topic payload pre (ty :: post) hpre,
      parse_match_head topic payload ty post hty,
      parse_match_head topic payload ty [] hty]

/-- C2 witness: the amended theorem applied to a concrete subscription
list containing one non-matching type before the matching one. -/
theorem C2_first_match_break_witness :
    parse_mqtt_message "hermes/nlu/query" (.jsonOk (.obj [("input", Json.str "hi")]))
        ([MsgTypeId.handleToggleOn] ++ MsgTypeId.nluQuery :: [MsgTypeId.asrToggleOn]) =
      parse_mqtt_message "hermes/nlu/query" (.jsonOk (.obj [("input", Json.str "hi")]))
        [MsgTypeId.nluQuery] :=
  C2_first_match_break.2 "hermes/nlu/query" (.jsonOk (.obj [("input", Json.str "hi")]))
    [MsgTypeId.handleToggleOn] MsgTypeId.nluQuery [MsgTypeId.asrToggleOn]
    (by decide) (by decide)

/-! ## Claim C10 -/

/-- Stripping an anchored literal prefix from a list that starts with it
leaves the remainder. -/
theorem dropLit_append (p r : List Char) : dropLit p (p ++ r) = some r := by
  induction p with
  | nil => rfl
  | cons c cs ih => simp [dropLit, ih]

/-- A string is its own character data repacked. -/
theorem string_mk_data (s : String) : String.mk s.data = s := rfl

/-- Appending strings appends their character data. -/
theorem string_data_append (s t : String) : (s ++ t).data = s.data ++ t.data := rfl

/-- C10 counterexample: the claim states `NluIntent.is_topic` accepts
`hermes/intent/<rest>` for every non-empty `<rest>`.  For
`<rest> = "a\x0ab"` (a newline in the middle) Python `re` rejects the
topic, because `.` does not match a newline. -/
theorem C10_counterexample :
    NluIntent.is_topic ("hermes/intent/a" ++ nlStr ++ "b") = false ∧
    ("a" ++ nlStr ++ "b") ≠ "" := by
  refine ⟨rfl, by decide⟩

/-- C10 amended: for every non-empty, newline-free `<rest>` — slashes
included — `hermes/intent/<rest>` is accepted by `NluIntent.is_topic` and
`get_intent_name` returns the entire remainder, so intent names span
multiple topic levels; the other templated types restrict each placeholder
to one level (`[^/]+`), e.g. `HotwordDetected` rejects a two-level
wakeword id.  (Rests containing a newline can fail to match, since Python
`.` excludes newlines.) -/
theorem C10_intent_name_multilevel (rest : String) (h1 : rest.data ≠ [])
    (h2 : rest.data.contains nlChar = false) :
    NluIntent.is_topic ("hermes/intent/" ++ rest) = true ∧
    NluIntent.get_intent_name ("hermes/intent/" ++ rest) = some rest ∧
    NluIntent.is_topic "hermes/intent/a/b" = true ∧
    NluIntent.get_intent_name "hermes/intent/a/b" = some "a/b" ∧
    HotwordDetected.is_topic "hermes/hotword/a/b/detected" = false := by
  have h3 : rest.data.isEmpty = false := by
    cases hr : rest.data with
    | nil => exact absurd hr h1
    | cons c cs => rfl
  have h2m : nlChar ∉ rest.data := by simpa using h2
  have hmatch : nluIntentMatch ("hermes/intent/" ++ rest) = some rest := by
    unfold nluIntentMatch
    rw [string_data_append, dropLit_append]
    simp [h3, h2m, string_mk_data]
  refine ⟨?_, ?_, rfl, rfl, rfl⟩
  · unfold NluIntent.is_topic
    rw [hmatch]
    rfl
  · unfold NluIntent.get_intent_name
    exact hmatch

/-- C10 witness: the amended theorem applied to the slash-containing
intent name `porcupine/x`. -/
theorem C10_intent_name_witness :
    NluIntent.is_topic ("hermes/intent/" ++ "porcupine/x") = true ∧
    NluIntent.get_intent_name ("hermes/intent/" ++ "porcupine/x") =
      some "porcupine/x" :=
  ⟨(C10_intent_name_multilevel "porcupine/x" (by decide) (by decide)).1,
    (C10_intent_name_multilevel "porcupine/x" (by decide) (by decide)).2.1⟩

/-! ## Claim C6 -/

/-- C6 counterexample: the claim states that for a JSON type without the
site id in the topic, a missing `siteId` key resolves the handler's
`site_id` to the string `"default"`.  The source (client.py line 307) uses
`json_payload.get("siteId")`, which is `None` for a missing key: parsing
`HandleToggleOn` from an empty JSON object passes `site_id = None` to the
handler, not `"default"` (only the decoded instance's own field takes the
default). -/
theorem C6_counterexample :
    parse_mqtt_message "rhasspy/handle/toggleOn" (.jsonOk (.obj []))
        [MsgTypeId.handleToggleOn] =
      [(Msg.handleToggleOn { site_id := "default" }, none, none)] ∧
    (none : Option String) ≠ some "default" :=
  ⟨rfl, by simp⟩

/-- C6 amended: for a JSON message type that does not place the site id in
the topic, the `site_id` yielded to the handler equals the value of the
`siteId` key of the decoded JSON body, and is `None` — not `"default"` —
when that key is absent. -/
theorem C6_site_from_json_body (ty : MsgTypeId) (topic : String)
    (kvs : List (String × Json)) (msg : Msg) (site sess : Option String)
    (tl : List (Msg × Option String × Option String))
    (hbin : ty.is_binary_payload = false)
    (hsite : ty.is_site_in_topic = false)
    (hp : parse_mqtt_message topic (.jsonOk (.obj kvs)) [ty] =
      (msg, site, sess) :: tl) :
    site = jgetSiteId kvs ∧ (jlookup kvs "siteId" = none → site = none) := by
  by_cases hty : ty.is_topic topic = true
  · rw [parse_match_head _ _ _ _ hty] at hp
    unfold decodeMatched at hp
    rw [if_neg (by simp [hbin])] at hp
    simp only [hsite, Bool.false_eq_true, if_false] at hp
    rcases hfd : ty.from_dict kvs with _ | m
    · rw [hfd] at hp
      simp at hp
    · rw [hfd] at hp
      simp only [List.cons.injEq, Prod.mk.injEq] at hp
      have hsite_eq : site = jgetSiteId kvs := hp.1.2.1.symm
      refine ⟨hsite_eq, fun h => ?_⟩
      rw [hsite_eq]
      unfold jgetSiteId
      rw [h]
  · rw [parse_cons, if_neg (by simp [hty])] at hp
    simp [parse_mqtt_message] at hp

/-- C6 witness: the amended theorem applied to an `NluQuery` payload whose
body carries `siteId = "kitchen"`. -/
theorem C6_site_from_json_body_witness :
    (some "kitchen" : Option String) =
      jgetSiteId [("input", Json.str "hi"), ("siteId", Json.str "kitchen")] ∧
    (jlookup [("input", Json.str "hi"), ("siteId", Json.str "kitchen")] "siteId" = none →
      (some "kitchen" : Option String) = none) :=
  C6_site_from_json_body .nluQuery "hermes/nlu/query"
    [("input", Json.str "hi"), ("siteId", Json.str "kitchen")]
    (Msg.nluQuery { input := "hi", site_id := "kitchen" }) (some "kitchen") none []
    rfl rfl rfl

/-- Defining equation of the delivery loop at a cons cell. -/
theorem handle_cons (subscribed : List MsgTypeId) (site_ids : List String)
    (handler : HandlerFun) (im : InboundMsg) (rest : List InboundMsg) :
    handle_messages_async subscribed site_ids handler (im :: rest) =
      match parse_mqtt_message im.topic im.payload subscribed with
      | [] => handle_messages_async subscribed site_ids handler rest
      | (msg, site, sess) :: _ =>
        if valid_site_id site_ids site then
          let r := handler msg site sess im.topic
          let evs := DispatchEvent.delivered msg site sess im.topic ::
            r.1.map DispatchEvent.published
          if r.2 then evs ++ [.loopBroken]
          else evs ++ handle_messages_async subscribed site_ids handler rest
        else handle_messages_async subscribed site_ids handler rest := rfl

/-! ## Claim C3 -/

/-- C3 counterexample: the claim states that after a handler exception the
dispatch loop proceeds to the next queued inbound message.  With a
blocking handler that raises on every message and the queue
`[toggleOn, nluQuery]`, the `except Exception` clause of
`handle_messages_async` executes `break` (client.py lines 272-274): the
second message is never delivered. -/
theorem C3_counterexample :
    handle_messages_async [MsgTypeId.handleToggleOn, MsgTypeId.nluQuery] []
        (fun _ _ _ _ => ([], true))
        [⟨"rhasspy/handle/toggleOn", .jsonOk (.obj [])⟩,
         ⟨"hermes/nlu/query", .jsonOk (.obj [("input", Json.str "hi")])⟩] =
      [DispatchEvent.delivered (Msg.handleToggleOn { site_id := "default" })
          none none "rhasspy/handle/toggleOn",
        DispatchEvent.loopBroken] ∧
    DispatchEvent.delivered (Msg.nluQuery { input := "hi" }) none none
        "hermes/nlu/query" ∉
      [DispatchEvent.delivered (Msg.handleToggleOn { site_id := "default" })
          none none "rhasspy/handle/toggleOn",
        DispatchEvent.loopBroken] := by
  refine ⟨rfl, by simp⟩

/-- C3 amended: an exception raised by `on_message_blocking` is caught at
the dispatch boundary and logged, but the loop then terminates (`break`):
the messages already published by the handler remain published and no
further queued inbound message is processed. -/
theorem C3_handler_error_breaks_loop (subscribed : List MsgTypeId)
    (site_ids : List String) (handler : HandlerFun) (im : InboundMsg)
    (rest : List InboundMsg) (msg : Msg) (site sess : Option String)
    (tl : List (Msg × Option String × Option String))
    (hp : parse_mqtt_message im.topic im.payload subscribed =
      (msg, site, sess) :: tl)
    (hv : valid_site_id site_ids site = true)
    (hr : (handler msg site sess im.topic).2 = true) :
    handle_messages_async subscribed site_ids handler (im :: rest) =
      DispatchEvent.delivered msg site sess im.topic ::
        ((handler msg site sess im.topic).1.map DispatchEvent.published ++
          [DispatchEvent.loopBroken]) := by
  unfold handle_messages_async
  rw [hp]
  simp [hv, hr]

/-- C3 witness: the amended theorem applied to a concrete always-raising
handler and a concrete queue head. -/
theorem C3_handler_error_breaks_loop_witness :
    handle_messages_async [MsgTypeId.handleToggleOn] []
        (fun _ _ _ _ => ([], true))
        [⟨"rhasspy/handle/toggleOn", .jsonOk (.obj [])⟩,
         ⟨"rhasspy/handle/toggleOn", .jsonOk (.obj [])⟩] =
      DispatchEvent.delivered (Msg.handleToggleOn { site_id := "default" })
          none none "rhasspy/handle/toggleOn" ::
        ([].map DispatchEvent.published ++ [DispatchEvent.loopBroken]) :=
  C3_handler_error_breaks_loop [MsgTypeId.handleToggleOn] []
    (fun _ _ _ _ => ([], true))
    ⟨"rhasspy/handle/toggleOn", .jsonOk (.obj [])⟩
    [⟨"rhasspy/handle/toggleOn", .jsonOk (.obj [])⟩]
    (Msg.handleToggleOn { site_id := "default" }) none none [] rfl rfl rfl

/-! ## Claim C7 -/

/-- C7 amended: `valid_site_id` rejects exactly when the resolved site id
is a present, non-empty string, the filter set is non-empty and the site
id is not in it; a rejected message is skipped with no event and the loop
continues, while an accepted message is delivered to the handler. -/
theorem C7_site_filter_semantics (site_ids : List String) (site : Option String) :
    (valid_site_id site_ids site = false ↔
      ∃ s, site = some s ∧ s ≠ "" ∧ site_ids ≠ [] ∧ s ∉ site_ids) ∧
    (∀ (subscribed : List MsgTypeId) (handler : HandlerFun) (im : InboundMsg)
        (rest : List InboundMsg) (msg : Msg) (sess : Option String)
        (tl : List (Msg × Option String × Option String)),
      parse_mqtt_message im.topic im.payload subscribed =
          (msg, site, sess) :: tl →
      valid_site_id site_ids site = false →
      handle_messages_async subscribed site_ids handler (im :: rest) =
        handle_messages_async subscribed site_ids handler rest) ∧
    (∀ (subscribed : List MsgTypeId) (handler : HandlerFun) (im : InboundMsg)
        (rest : List InboundMsg) (msg : Msg) (sess : Option String)
        (tl : List (Msg × Option String × Option String)),
      parse_mqtt_message im.topic im.payload subscribed =
          (msg, site, sess) :: tl →
      valid_site_id site_ids site = true →
      ∃ evs, handle_messages_async subscribed site_ids handler (im :: rest) =
        DispatchEvent.delivered msg site sess im.topic :: evs) := by
  refine ⟨?_, ?_, ?_⟩
  · cases site with
    | none => simp [valid_site_id]
    | some s =>
      by_cases h0 : s = ""
      · subst h0
        simp [valid_site_id]
      · by_cases hn : site_ids = []
        · subst hn
          simp [valid_site_id, h0]
        · by_cases hm : s ∈ site_ids
          · simp [valid_site_id, h0, hn, hm]
          · simp [valid_site_id, h0, hn, hm]
  · intro subscribed handler im rest msg sess tl hparse hv
    rw [handle_cons, hparse]
    simp [hv]
  · intro subscribed handler im rest msg sess tl hparse hv
    rw [handle_cons, hparse]
    simp only [hv, if_true]
    split
    · exact ⟨_, rfl⟩
    · exact ⟨_, rfl⟩

/-- C7 witness: the amended theorem applied to the filter `{"kitchen"}`
with resolved site ids `"living_room"` (discarded) and `"kitchen"`
(delivered). -/
theorem C7_site_filter_semantics_witness :
    valid_site_id ["kitchen"] (some "living_room") = false ∧
    handle_messages_async [MsgTypeId.handleToggleOn] ["kitchen"]
        (fun _ _ _ _ => ([], false))
        [⟨"rhasspy/handle/toggleOn",
          .jsonOk (.obj [("siteId", Json.str "living_room")])⟩] =
      handle_messages_async [MsgTypeId.handleToggleOn] ["kitchen"]
        (fun _ _ _ _ => ([], false)) [] ∧
    (∃ evs, handle_messages_async [MsgTypeId.handleToggleOn] ["kitchen"]
        (fun _ _ _ _ => ([], false))
        [⟨"rhasspy/handle/toggleOn",
          .jsonOk (.obj [("siteId", Json.str "kitchen")])⟩] =
      DispatchEvent.delivered (Msg.handleToggleOn { site_id := "kitchen" })
        (some "kitchen") none "rhasspy/handle/toggleOn" :: evs) :=
  ⟨(C7_site_filter_semantics ["kitchen"] (some "living_room")).1.mpr
      ⟨"living_room", rfl, by decide, by decide, by decide⟩,
    (C7_site_filter_semantics ["kitchen"] (some "living_room")).2.1
      [MsgTypeId.handleToggleOn] (fun _ _ _ _ => ([], false))
      ⟨"rhasspy/handle/toggleOn",
        .jsonOk (.obj [("siteId", Json.str "living_room")])⟩ []
      (Msg.handleToggleOn { site_id := "living_room" }) none [] rfl rfl,
    (C7_site_filter_semantics ["kitchen"] (some "kitchen")).2.2
      [MsgTypeId.handleToggleOn] (fun _ _ _ _ => ([], false))
      ⟨"rhasspy/handle/toggleOn",
        .jsonOk (.obj [("siteId", Json.str "kitchen")])⟩ []
      (Msg.handleToggleOn { site_id := "kitchen" }) none [] rfl rfl⟩

/-! ## Claims C4 and C5: codec lemmas -/

/-- Decoding an encoded string array gives back the list. -/
theorem decStrArr_map_str (xs : List String) :
    decStrArr (xs.map Json.str) = some xs := by
  induction xs with
  | nil => rfl
  | cons x xs ih => simp [decStrArr, ih]

/-- Decoding an encoded optional string gives back the value. -/
theorem decOptStr_enc (v : Option String) :
    decOptStr (some (encOptStr v)) = some v := by
  cases v <;> rfl

/-- Decoding an encoded optional string list gives back the value. -/
theorem decOptStrList_enc (v : Option (List String)) :
    decOptStrList (some (encOptStrList v)) = some v := by
  cases v with
  | none => rfl
  | some xs => simp [encOptStrList, decOptStrList, decStrArr_map_str]

/-- The enum wire encoding is decoded back to the same member. -/
theorem ofWire_wireValue (r : AsrToggleReason) :
    AsrToggleReason.ofWire r.wireValue = some r := by
  cases r <;> rfl

/-- Round trip for `HandleToggleOn`. -/
theorem handleToggleOn_roundtrip (m : HandleToggleOn) :
    HandleToggleOn.from_dict (HandleToggleOn.to_dict m) = some m := by
  cases m
  simp [HandleToggleOn.to_dict, HandleToggleOn.from_dict, jlookup, decStrDef]

/-- Round trip for `AsrToggleOn`. -/
theorem asrToggleOn_roundtrip (m : AsrToggleOn) :
    AsrToggleOn.from_dict (AsrToggleOn.to_dict m) = some m := by
  cases m
  simp [AsrToggleOn.to_dict, AsrToggleOn.from_dict, jlookup, decStrDef,
    decReasonDef, ofWire_wireValue]

/-- Round trip for `AsrStartListening`. -/
theorem asrStartListening_roundtrip (m : AsrStartListening) :
    AsrStartListening.from_dict (AsrStartListening.to_dict m) = some m := by
  cases m
  simp [AsrStartListening.to_dict, AsrStartListening.from_dict, jlookup,
    decStrDef, decBoolDef, decOptStr_enc, decOptStrList_enc]

/-- Round trip for `NluQuery`. -/
theorem nluQuery_roundtrip (m : NluQuery) :
    NluQuery.from_dict (NluQuery.to_dict m) = some m := by
  cases m
  simp [NluQuery.to_dict, NluQuery.from_dict, jlookup, decStrReq, decStrDef,
    decOptStr_enc, decOptStrList_enc]

/-- C4: for every embedded JSON message type, decoding the encoded payload
dictionary yields an equal instance — `from_dict (to_dict m) = some m` —
with the camelCase wire names written by the encoder and read back by the
decoder. -/
theorem C4_json_roundtrip :
    (∀ m : HandleToggleOn,
      HandleToggleOn.from_dict (HandleToggleOn.to_dict m) = some m) ∧
    (∀ m : AsrToggleOn,
      AsrToggleOn.from_dict (AsrToggleOn.to_dict m) = some m) ∧
    (∀ m : AsrStartListening,
      AsrStartListening.from_dict (AsrStartListening.to_dict m) = some m) ∧
    (∀ m : NluQuery, NluQuery.from_dict (NluQuery.to_dict m) = some m) :=
  ⟨handleToggleOn_roundtrip, asrToggleOn_roundtrip,
    asrStartListening_roundtrip, nluQuery_roundtrip⟩

/-! ## Claim C5 -/

/-- Wire keys of `HandleToggleOn`. -/
def HandleToggleOn.wireKeys : List String := ["siteId"]

/-- Wire keys of `AsrToggleOn`. -/
def AsrToggleOn.wireKeys : List String := ["siteId", "reason"]

/-- Wire keys of `AsrStartListening`. -/
def AsrStartListening.wireKeys : List String :=
  ["siteId", "sessionId", "lang", "stopOnSilence", "sendAudioCaptured",
   "wakewordId", "intentFilter"]

/-- Wire keys of `NluQuery`. -/
def NluQuery.wireKeys : List String :=
  ["input", "siteId", "id", "intentFilter", "sessionId", "wakewordId", "lang"]

/-- Every key of `extra` lies outside the declared wire keys `ks`. -/
def keysOutside (extra : List (String × Json)) (ks : List String) : Prop :=
  ∀ p ∈ extra, p.1 ∉ ks

/-- Lookup in a list that lacks the key returns `none`. -/
theorem jlookup_not_mem (l : List (String × Json)) (k : String)
    (h : ∀ p ∈ l, p.1 ≠ k) : jlookup l k = none := by
  induction l with
  | nil => rfl
  | cons p ps ih =>
    have hp : p.1 ≠ k := h p (by simp)
    simp only [jlookup, if_neg hp]
    exact ih fun q hq => h q (by simp [hq])

/-- Lookup distributes over append when the key is found on the left. -/
theorem jlookup_append_some (l1 l2 : List (String × Json)) (k : String)
    (v : Json) (h : jlookup l1 k = some v) : jlookup (l1 ++ l2) k = some v := by
  induction l1 with
  | nil => simp [jlookup] at h
  | cons p ps ih =>
    obtain ⟨k1, v1⟩ := p
    by_cases hp : k1 = k
    · simp only [jlookup, if_pos hp] at h ⊢
      exact h
    · simp only [jlookup, if_neg hp] at h ⊢
      exact ih h

/-- Lookup falls through to the right list when the key is absent on the
left. -/
theorem jlookup_append_none (l1 l2 : List (String × Json)) (k : String)
    (h : jlookup l1 k = none) : jlookup (l1 ++ l2) k = jlookup l2 k := by
  induction l1 with
  | nil => rfl
  | cons p ps ih =>
    obtain ⟨k1, v1⟩ := p
    by_cases hp : k1 = k
    · simp only [jlookup, if_pos hp] at h
      exact Option.noConfusion h
    · simp only [jlookup, if_neg hp] at h ⊢
      exact ih h

/-- Appending pairs with foreign keys does not change a lookup. -/
theorem jlookup_append_outside (kvs extra : List (String × Json)) (k : String)
    (hk : ∀ p ∈ extra, p.1 ≠ k) :
    jlookup (kvs ++ extra) k = jlookup kvs k := by
  cases h : jlookup kvs k with
  | none =>
    rw [jlookup_append_none kvs extra k h]
    exact jlookup_not_mem extra k hk
  | some v => exact jlookup_append_some kvs extra k v h

/-- Prepending pairs with foreign keys does not change a lookup. -/
theorem jlookup_prepend_outside (kvs extra : List (String × Json)) (k : String)
    (hk : ∀ p ∈ extra, p.1 ≠ k) :
    jlookup (extra ++ kvs) k = jlookup kvs k :=
  jlookup_append_none extra kvs k (jlookup_not_mem extra k hk)

/-- C5: unknown JSON keys are ignored without error — appending or
prepending pairs whose keys lie outside a type's declared wire keys leaves
`from_dict` unchanged (for both success and failure), so decoding a valid
object still succeeds with extra unknown keys and the resulting instance
carries only declared fields; in particular an encoded `NluQuery` with
extra keys decodes to the original instance. -/
theorem C5_unknown_keys_ignored :
    (∀ kvs extra, keysOutside extra HandleToggleOn.wireKeys →
      HandleToggleOn.from_dict (kvs ++ extra) = HandleToggleOn.from_dict kvs ∧
      HandleToggleOn.from_dict (extra ++ kvs) = HandleToggleOn.from_dict kvs) ∧
    (∀ kvs extra, keysOutside extra AsrToggleOn.wireKeys →
      AsrToggleOn.from_dict (kvs ++ extra) = AsrToggleOn.from_dict kvs ∧
      AsrToggleOn.from_dict (extra ++ kvs) = AsrToggleOn.from_dict kvs) ∧
    (∀ kvs extra, keysOutside extra AsrStartListening.wireKeys →
      AsrStartListening.from_dict (kvs ++ extra) = AsrStartListening.from_dict kvs ∧
      AsrStartListening.from_dict (extra ++ kvs) = AsrStartListening.from_dict kvs) ∧
    (∀ kvs extra, keysOutside extra NluQuery.wireKeys →
      NluQuery.from_dict (kvs ++ extra) = NluQuery.from_dict kvs ∧
      NluQuery.from_dict (extra ++ kvs) = NluQuery.from_dict kvs) ∧
    (∀ (m : NluQuery) extra, keysOutside extra NluQuery.wireKeys →
      NluQuery.from_dict (NluQuery.to_dict m ++ extra) = some m) := by
  have hne : ∀ (extra : List (String × Json)) (ks : List String),
      keysOutside extra ks → ∀ k ∈ ks, ∀ p ∈ extra, p.1 ≠ k := by
    intro extra ks hout k hk p hp he
    exact hout p hp (he ▸ hk)
  refine ⟨?_, ?_, ?_, ?_, ?_⟩
  · intro kvs extra hout
    have h := hne extra HandleToggleOn.wireKeys hout
    constructor
    · unfold HandleToggleOn.from_dict
      rw [jlookup_append_outside kvs extra "siteId" (h "siteId" (by simp [HandleToggleOn.wireKeys]))]
    · unfold HandleToggleOn.from_dict
      rw [jlookup_prepend_outside kvs extra "siteId" (h "siteId" (by simp [HandleToggleOn.wireKeys]))]
  · intro kvs extra hout
    have h := hne extra AsrToggleOn.wireKeys hout
    constructor
    · unfold AsrToggleOn.from_dict
      rw [jlookup_append_outside kvs extra "siteId" (h "siteId" (by simp [AsrToggleOn.wireKeys])),
        jlookup_append_outside kvs extra "reason" (h "reason" (by simp [AsrToggleOn.wireKeys]))]
    · unfold AsrToggleOn.from_dict
      rw [jlookup_prepend_outside kvs extra "siteId" (h "siteId" (by simp [AsrToggleOn.wireKeys])),
        jlookup_prepend_outside kvs extra "reason" (h "reason" (by simp [AsrToggleOn.wireKeys]))]
  · intro kvs extra hout
    have h := hne extra AsrStartListening.wireKeys hout
    constructor
    · unfold AsrStartListening.from_dict
      rw [jlookup_append_outside kvs extra "siteId" (h "siteId" (by simp [AsrStartListening.wireKeys])),
        jlookup_append_outside kvs extra "sessionId" (h "sessionId" (by simp [AsrStartListening.wireKeys])),
        jlookup_append_outside kvs extra "lang" (h "lang" (by simp [AsrStartListening.wireKeys])),
        jlookup_append_outside kvs extra "stopOnSilence" (h "stopOnSilence" (by simp [AsrStartListening.wireKeys])),
        jlookup_append_outside kvs extra "sendAudioCaptured" (h "sendAudioCaptured" (by simp [AsrStartListening.wireKeys])),
        jlookup_append_outside kvs extra "wakewordId" (h "wakewordId" (by simp [AsrStartListening.wireKeys])),
        jlookup_append_outside kvs extra "intentFilter" (h "intentFilter" (by simp [AsrStartListening.wireKeys]))]
    · unfold AsrStartListening.from_dict
      rw [jlookup_prepend_outside kvs extra "siteId" (h "siteId" (by simp [AsrStartListening.wireKeys])),
        jlookup_prepend_outside kvs extra "sessionId" (h "sessionId" (by simp [AsrStartListening.wireKeys])),
        jlookup_prepend_outside kvs extra "lang" (h "lang" (by simp [AsrStartListening.wireKeys])),
        jlookup_prepend_outside kvs extra "stopOnSilence" (h "stopOnSilence" (by simp [AsrStartListening.wireKeys])),
        jlookup_prepend_outside kvs extra "sendAudioCaptured" (h "sendAudioCaptured" (by simp [AsrStartListening.wireKeys])),
        jlookup_prepend_outside kvs extra "wakewordId" (h "wakewordId" (by simp [AsrStartListening.wireKeys])),
        jlookup_prepend_outside kvs extra "intentFilter" (h "intentFilter" (by simp [AsrStartListening.wireKeys]))]
  · intro kvs extra hout
    have h := hne extra NluQuery.wireKeys hout
    constructor
    · unfold NluQuery.from_dict
      rw [jlookup_append_outside kvs extra "input" (h "input" (by simp [NluQuery.wireKeys])),
        jlookup_append_outside kvs extra "siteId" (h "siteId" (by simp [NluQuery.wireKeys])),
        jlookup_append_outside kvs extra "id" (h "id" (by simp [NluQuery.wireKeys])),
        jlookup_append_outside kvs extra "intentFilter" (h "intentFilter" (by simp [NluQuery.wireKeys])),
        jlookup_append_outside kvs extra "sessionId" (h "sessionId" (by simp [NluQuery.wireKeys])),
        jlookup_append_outside kvs extra "wakewordId" (h "wakewordId" (by simp [NluQuery.wireKeys])),
        jlookup_append_outside kvs extra "lang" (h "lang" (by simp [NluQuery.wireKeys]))]
    · unfold NluQuery.from_dict
      rw [jlookup_prepend_outside kvs extra "input" (h "input" (by simp [NluQuery.wireKeys])),
        jlookup_prepend_outside kvs extra "siteId" (h "siteId" (by simp [NluQuery.wireKeys])),
        jlookup_prepend_outside kvs extra "id" (h "id" (by simp [NluQuery.wireKeys])),
        jlookup_prepend_outside kvs extra "intentFilter" (h "intentFilter" (by simp [NluQuery.wireKeys])),
        jlookup_prepend_outside kvs extra "sessionId" (h "sessionId" (by simp [NluQuery.wireKeys])),
        jlookup_prepend_outside kvs extra "wakewordId" (h "wakewordId" (by simp [NluQuery.wireKeys])),
        jlookup_prepend_outside kvs extra "lang" (h "lang" (by simp [NluQuery.wireKeys]))]
  · intro m extra hout
    have h := hne extra NluQuery.wireKeys hout
    unfold NluQuery.from_dict
    rw [jlookup_append_outside _ extra "input" (h "input" (by simp [NluQuery.wireKeys])),
      jlookup_append_outside _ extra "siteId" (h "siteId" (by simp [NluQuery.wireKeys])),
      jlookup_append_outside _ extra "id" (h "id" (by simp [NluQuery.wireKeys])),
      jlookup_append_outside _ extra "intentFilter" (h "intentFilter" (by simp [NluQuery.wireKeys])),
      jlookup_append_outside _ extra "sessionId" (h "sessionId" (by simp [NluQuery.wireKeys])),
      jlookup_append_outside _ extra "wakewordId" (h "wakewordId" (by simp [NluQuery.wireKeys])),
      jlookup_append_outside _ extra "lang" (h "lang" (by simp [NluQuery.wireKeys]))]
    exact nluQuery_roundtrip m

/-- C5 witness: a concrete `NluQuery` payload with two unknown keys
decodes to the original instance. -/
theorem C5_unknown_keys_ignored_witness :
    NluQuery.from_dict (NluQuery.to_dict { input := "hi" } ++
        [("extraKey", Json.num 3), ("anotherOne", Json.bool true)]) =
      some { input := "hi" } :=
  C5_unknown_keys_ignored.2.2.2.2 { input := "hi" }
    [("extraKey", Json.num 3), ("anotherOne", Json.bool true)]
    (by simp [keysOutside, NluQuery.wireKeys])

/-! ## Claim C9: lemmas about the set model and the subscribe loop -/

/-- Membership in a Python-set insertion. -/
theorem mem_sinsert (xs : List String) (t a : String) :
    a ∈ sinsert xs t ↔ a ∈ xs ∨ a = t := by
  unfold sinsert
  split
  · rename_i h
    constructor
    · exact fun ha => Or.inl ha
    · rintro (ha | rfl)
      · exact ha
      · exact h
  · simp

/-- Insertion preserves duplicate-freedom. -/
theorem sinsert_nodup (xs : List String) (t : String) (h : xs.Nodup) :
    (sinsert xs t).Nodup := by
  unfold sinsert
  split
  · exact h
  · rename_i ht
    simp [List.nodup_append, h, ht]

/-- Membership in a Python-set union. -/
theorem mem_sunion (ts : List String) :
    ∀ (xs : List String) (a : String), a ∈ sunion xs ts ↔ a ∈ xs ∨ a ∈ ts := by
  induction ts with
  | nil => intro xs a; simp [sunion]
  | cons t ts ih =>
    intro xs a
    have : sunion xs (t :: ts) = sunion (sinsert xs t) ts := rfl
    rw [this, ih (sinsert xs t) a, mem_sinsert]
    simp
    tauto

/-- Union preserves duplicate-freedom of the left set, whatever the added
topics. -/
theorem sunion_nodup (ts : List String) :
    ∀ xs : List String, xs.Nodup → (sunion xs ts).Nodup := by
  induction ts with
  | nil => exact fun xs h => h
  | cons t ts ih => exact fun xs h => ih (sinsert xs t) (sinsert_nodup xs t h)

/-- The emission accumulator of `subLoop` is append-homomorphic. -/
theorem subLoop_em_acc (ps : List String) :
    ∀ all subd em, subLoop ps all subd em =
      ((subLoop ps all subd []).1, (subLoop ps all subd []).2.1,
        em ++ (subLoop ps all subd []).2.2) := by
  induction ps with
  | nil => intro all subd em; simp [subLoop]
  | cons t ts ih =>
    intro all subd em
    by_cases h : t ∈ subd
    · simp only [subLoop, if_pos h]
      exact ih (sinsert all t) subd em
    · simp only [subLoop, if_neg h]
      rw [ih (sinsert all t) (subd ++ [t]) (em ++ [t]),
        ih (sinsert all t) (subd ++ [t]) ([] ++ [t])]
      simp

/-- After the loop, `subscribed_topics` is the old set extended by exactly
the emitted subscribe calls, in order. -/
theorem subLoop_subd_append (ps : List String) :
    ∀ all subd, (subLoop ps all subd []).2.1 =
      subd ++ (subLoop ps all subd []).2.2 := by
  induction ps with
  | nil => intro all subd; simp [subLoop]
  | cons t ts ih =>
    intro all subd
    by_cases h : t ∈ subd
    · simp only [subLoop, if_pos h]
      exact ih (sinsert all t) subd
    · simp only [subLoop, if_neg h]
      rw [subLoop_em_acc ts (sinsert all t) (subd ++ [t]) ([] ++ [t]),
        ih (sinsert all t) (subd ++ [t])]
      simp

/-- The loop preserves duplicate-freedom of `subscribed_topics`. -/
theorem subLoop_subd_nodup (ps : List String) :
    ∀ all subd em, subd.Nodup → ((subLoop ps all subd em).2.1).Nodup := by
  induction ps with
  | nil => intro all subd em h; exact h
  | cons t ts ih =>
    intro all subd em h
    by_cases ht : t ∈ subd
    · simp only [subLoop, if_pos ht]
      exact ih _ _ _ h
    · simp only [subLoop, if_neg ht]
      exact ih _ _ _ (by simp [List.nodup_append, h, ht])

/-- Everything in the incoming `all_mqtt_topics`, and every looped topic,
is in the resulting `all_mqtt_topics`. -/
theorem subLoop_mem_all (ps : List String) :
    ∀ all subd em a, (a ∈ all ∨ a ∈ ps) → a ∈ (subLoop ps all subd em).1 := by
  induction ps with
  | nil =>
    intro all subd em a ha
    rcases ha with h | h
    · exact h
    · simp at h
  | cons t ts ih =>
    intro all subd em a ha
    have hmem : a ∈ sinsert all t ∨ a ∈ ts := by
      rcases ha with h | h
      · exact Or.inl ((mem_sinsert all t a).mpr (Or.inl h))
      · rcases List.mem_cons.mp h with rfl | h2
        · exact Or.inl ((mem_sinsert all a a).mpr (Or.inr rfl))
        · exact Or.inr h2
    by_cases ht : t ∈ subd
    · simp only [subLoop, if_pos ht]
      exact ih _ _ _ a hmem
    · simp only [subLoop, if_neg ht]
      exact ih _ _ _ a hmem

/-- Every emitted subscribe call was already accumulated or came from the
looped topics. -/
theorem subLoop_em_mem (ps : List String) :
    ∀ all subd em t, t ∈ (subLoop ps all subd em).2.2 → t ∈ em ∨ t ∈ ps := by
  induction ps with
  | nil => intro all subd em t ht; exact Or.inl ht
  | cons p ps2 ih =>
    intro all subd em t ht
    by_cases hp : p ∈ subd
    · simp only [subLoop, if_pos hp] at ht
      rcases ih _ _ _ t ht with h | h
      · exact Or.inl h
      · exact Or.inr (by simp [h])
    · simp only [subLoop, if_neg hp] at ht
      rcases ih _ _ _ t ht with h | h
      · rcases List.mem_append.mp h with h2 | h2
        · exact Or.inl h2
        · simp at h2
          exact Or.inr (by simp [h2])
      · exact Or.inr (by simp [h])

/-- When nothing is subscribed yet and the looped topics are
duplicate-free, every looped topic is emitted exactly in order. -/
theorem subLoop_em_all_new (ps : List String) :
    ∀ all subd em, ps.Nodup → (∀ t ∈ ps, t ∉ subd) →
      (subLoop ps all subd em).2.2 = em ++ ps := by
  induction ps with
  | nil => intro all subd em _ _; simp [subLoop]
  | cons t ts ih =>
    intro all subd em hnd hout
    have ht : t ∉ subd := hout t (by simp)
    simp only [subLoop, if_neg ht]
    rw [ih (sinsert all t) (subd ++ [t]) (em ++ [t]) hnd.of_cons]
    · simp
    · intro x hx
      simp only [List.mem_append, List.mem_singleton]
      rintro (h | rfl)
      · exact hout x (by simp [hx]) h
      · exact (List.nodup_cons.mp hnd).1 hx

/-- Invariant of the subscription state: the modelled Python sets are
duplicate-free lists. -/
def Inv (s : ClientState) : Prop :=
  s.pending_mqtt_topics.Nodup ∧ s.subscribed_topics.Nodup

/-- The fresh client satisfies the invariant. -/
theorem initState_inv : Inv initState :=
  ⟨List.nodup_nil, List.nodup_nil⟩

/-- `subscribe_topics` extends `subscribed_topics` by exactly its emitted
subscribe calls. -/
theorem subscribe_topics_subd_append (s : ClientState) (ts : List String) :
    (subscribe_topics s ts).1.subscribed_topics =
      s.subscribed_topics ++ (subscribe_topics s ts).2 := by
  unfold subscribe_topics
  split
  · exact subLoop_subd_append _ _ _
  · simp

/-- `subscribe_topics` preserves the invariant. -/
theorem subscribe_topics_inv (s : ClientState) (ts : List String) (h : Inv s) :
    Inv (subscribe_topics s ts).1 := by
  unfold subscribe_topics
  split
  · exact ⟨List.nodup_nil, subLoop_subd_nodup _ _ _ _ h.2⟩
  · exact ⟨sunion_nodup ts s.pending_mqtt_topics h.1, h.2⟩

/-- `subscribe_topics` never removes a topic from `all_mqtt_topics`. -/
theorem subscribe_topics_all_mono (s : ClientState) (ts : List String)
    (a : String) (ha : a ∈ s.all_mqtt_topics) :
    a ∈ (subscribe_topics s ts).1.all_mqtt_topics := by
  unfold subscribe_topics
  split
  · exact subLoop_mem_all _ _ _ _ a (Or.inl ha)
  · exact ha

/-- Every subscribe call emitted by `subscribe_topics` is recorded in the
resulting `all_mqtt_topics` (the loop adds the topic to the set before the
call, client.py line 112). -/
theorem subscribe_topics_em_all (s : ClientState) (ts : List String)
    (t : String) (ht : t ∈ (subscribe_topics s ts).2) :
    t ∈ (subscribe_topics s ts).1.all_mqtt_topics := by
  unfold subscribe_topics at ht ⊢
  by_cases hc : s.is_connected = true
  · simp only [if_pos hc] at ht ⊢
    rcases subLoop_em_mem _ _ _ _ t ht with h | h
    · simp at h
    · exact subLoop_mem_all _ _ _ _ t (Or.inr h)
  · simp only [if_neg hc] at ht
    simp at ht

/-- Closed form of `mqtt_on_connect`: with the just-cleared
`subscribed_topics` and the pending set refilled from `all_mqtt_topics`,
the subscribe loop runs over the union. -/
theorem mqtt_on_connect_eq (s : ClientState) :
    mqtt_on_connect s =
      ({ is_connected := true, pending_mqtt_topics := [],
         all_mqtt_topics := (subLoop
           (sunion s.pending_mqtt_topics s.all_mqtt_topics)
           s.all_mqtt_topics [] []).1,
         subscribed_topics := (subLoop
           (sunion s.pending_mqtt_topics s.all_mqtt_topics)
           s.all_mqtt_topics [] []).2.1 },
       (subLoop (sunion s.pending_mqtt_topics s.all_mqtt_topics)
         s.all_mqtt_topics [] []).2.2) := rfl

/-- On (re)connect, the emitted subscribe calls are exactly the refilled
pending set: duplicate-free, they become the new `subscribed_topics`, and
they cover everything previously in `all_mqtt_topics` or pending. -/
theorem mqtt_on_connect_spec (s : ClientState) (h : Inv s) :
    (mqtt_on_connect s).1.subscribed_topics = (mqtt_on_connect s).2 ∧
    ((mqtt_on_connect s).2).Nodup ∧
    (∀ t, t ∈ s.all_mqtt_topics ∨ t ∈ s.pending_mqtt_topics →
      t ∈ (mqtt_on_connect s).2) := by
  have hpend : (sunion s.pending_mqtt_topics s.all_mqtt_topics).Nodup :=
    sunion_nodup s.all_mqtt_topics s.pending_mqtt_topics h.1
  have hE : (subLoop (sunion s.pending_mqtt_topics s.all_mqtt_topics)
      s.all_mqtt_topics [] []).2.2 =
      sunion s.pending_mqtt_topics s.all_mqtt_topics := by
    have := subLoop_em_all_new (sunion s.pending_mqtt_topics s.all_mqtt_topics)
      s.all_mqtt_topics [] [] hpend (by intro t _; simp)
    simpa using this
  rw [mqtt_on_connect_eq]
  refine ⟨?_, ?_, ?_⟩
  · simpa using subLoop_subd_append
      (sunion s.pending_mqtt_topics s.all_mqtt_topics) s.all_mqtt_topics []
  · show ((subLoop (sunion s.pending_mqtt_topics s.all_mqtt_topics)
      s.all_mqtt_topics [] []).2.2).Nodup
    rw [hE]
    exact hpend
  · intro t ht
    show t ∈ (subLoop (sunion s.pending_mqtt_topics s.all_mqtt_topics)
      s.all_mqtt_topics [] []).2.2
    rw [hE]
    rcases ht with h1 | h1
    · exact (mem_sunion _ _ _).mpr (Or.inr h1)
    · exact (mem_sunion _ _ _).mpr (Or.inl h1)

/-- A step preserves the invariant. -/
theorem stepClient_inv (s : ClientState) (op : ClientOp) (h : Inv s) :
    Inv (stepClient s op).1 := by
  cases op with
  | connect =>
    refine ⟨?_, ?_⟩
    · show ((mqtt_on_connect s).1).pending_mqtt_topics.Nodup
      rw [mqtt_on_connect_eq]
      exact List.nodup_nil
    · show ((mqtt_on_connect s).1).subscribed_topics.Nodup
      rw [mqtt_on_connect_eq]
      exact subLoop_subd_nodup _ _ _ _ List.nodup_nil
  | disconnect => exact h
  | subscribeTopics ts => exact subscribe_topics_inv s ts h

/-- A non-connect step extends `subscribed_topics` by exactly its emitted
subscribe calls. -/
theorem stepClient_subd_append (s : ClientState) (op : ClientOp)
    (hop : op ≠ ClientOp.connect) :
    (stepClient s op).1.subscribed_topics =
      s.subscribed_topics ++ (stepClient s op).2 := by
  cases op with
  | connect => exact absurd rfl hop
  | disconnect =>
    show (mqtt_on_disconnect s).subscribed_topics = s.subscribed_topics ++ []
    simp [mqtt_on_disconnect]
  | subscribeTopics ts => exact subscribe_topics_subd_append s ts

/-- A step never removes a topic from `all_mqtt_topics`. -/
theorem stepClient_all_mono (s : ClientState) (op : ClientOp) (a : String)
    (ha : a ∈ s.all_mqtt_topics) : a ∈ (stepClient s op).1.all_mqtt_topics := by
  cases op with
  | connect =>
    show a ∈ ((mqtt_on_connect s).1).all_mqtt_topics
    rw [mqtt_on_connect_eq]
    exact subLoop_mem_all _ _ _ _ a (Or.inl ha)
  | disconnect => exact ha
  | subscribeTopics ts => exact subscribe_topics_all_mono s ts a ha

/-- Every subscribe call emitted by a step is recorded in the resulting
`all_mqtt_topics`. -/
theorem stepClient_em_all (s : ClientState) (op : ClientOp) (t : String)
    (ht : t ∈ (stepClient s op).2) :
    t ∈ (stepClient s op).1.all_mqtt_topics := by
  cases op with
  | connect =>
    have ht2 : t ∈ (mqtt_on_connect s).2 := ht
    rw [mqtt_on_connect_eq] at ht2
    show t ∈ ((mqtt_on_connect s).1).all_mqtt_topics
    rw [mqtt_on_connect_eq]
    rcases subLoop_em_mem _ _ _ _ t ht2 with h | h
    · simp at h
    · exact subLoop_mem_all _ _ _ _ t (Or.inr h)
  | disconnect => simp [stepClient] at ht
  | subscribeTopics ts => exact subscribe_topics_em_all s ts t ht

/-- Defining equation of `runClient` at a cons cell. -/
theorem runClient_cons (s : ClientState) (op : ClientOp) (ops : List ClientOp) :
    runClient s (op :: ops) =
      ((runClient (stepClient s op).1 ops).1,
        (stepClient s op).2 ++ (runClient (stepClient s op).1 ops).2) := rfl

/-- Runs preserve the invariant. -/
theorem runClient_inv (ops : List ClientOp) :
    ∀ s : ClientState, Inv s → Inv (runClient s ops).1 := by
  induction ops with
  | nil => exact fun s h => h
  | cons op ops ih =>
    intro s h
    rw [runClient_cons]
    exact ih _ (stepClient_inv s op h)

/-- Runs never remove a topic from `all_mqtt_topics`. -/
theorem runClient_all_mono (ops : List ClientOp) :
    ∀ (s : ClientState) (a : String), a ∈ s.all_mqtt_topics →
      a ∈ (runClient s ops).1.all_mqtt_topics := by
  induction ops with
  | nil => exact fun s a ha => ha
  | cons op ops ih =>
    intro s a ha
    rw [runClient_cons]
    exact ih _ a (stepClient_all_mono s op a ha)

/-- Every subscribe call emitted during a run ends up recorded in the
final `all_mqtt_topics`. -/
theorem runClient_em_all (ops : List ClientOp) :
    ∀ (s : ClientState) (t : String), t ∈ (runClient s ops).2 →
      t ∈ (runClient s ops).1.all_mqtt_topics := by
  induction ops with
  | nil => intro s t ht; simp [runClient] at ht
  | cons op ops ih =>
    intro s t ht
    rw [runClient_cons] at ht ⊢
    rcases List.mem_append.mp ht with h | h
    · exact runClient_all_mono ops _ t (stepClient_em_all s op t h)
    · exact ih _ t h

/-- A connect-free run extends `subscribed_topics` by exactly its emitted
subscribe calls, in order. -/
theorem runClient_subd_append (ops : List ClientOp)
    (hops : ∀ op ∈ ops, op ≠ ClientOp.connect) :
    ∀ s : ClientState, (runClient s ops).1.subscribed_topics =
      s.subscribed_topics ++ (runClient s ops).2 := by
  induction ops with
  | nil => intro s; simp [runClient]
  | cons op ops ih =>
    intro s
    rw [runClient_cons]
    have h1 := ih (fun o ho => hops o (by simp [ho])) (stepClient s op).1
    rw [h1, stepClient_subd_append s op (hops op (by simp))]
    simp

/-! ## Claim C9 -/

/-- C9: from any reachable client state, a disconnect followed by a
reconnect re-subscribes on the transport a duplicate-free list of topics
that becomes the new `subscribed_topics` and contains every topic ever
subscribed before exactly once; and within a single connected period (a
connect-free stretch of operations) the subscribe calls extend
`subscribed_topics` exactly, which stays duplicate-free — so no literal
topic is subscribed twice in one period. -/
theorem C9_reconnect_replay :
    (∀ ops : List ClientOp,
      (mqtt_on_connect (mqtt_on_disconnect (runClient initState ops).1)).1.subscribed_topics =
        (mqtt_on_connect (mqtt_on_disconnect (runClient initState ops).1)).2 ∧
      ((mqtt_on_connect (mqtt_on_disconnect (runClient initState ops).1)).2).Nodup ∧
      (∀ t ∈ (runClient initState ops).2,
        ((mqtt_on_connect (mqtt_on_disconnect (runClient initState ops).1)).2).count t = 1)) ∧
    (∀ pre post : List ClientOp, (∀ op ∈ post, op ≠ ClientOp.connect) →
      (runClient (runClient initState pre).1 post).1.subscribed_topics =
        (runClient initState pre).1.subscribed_topics ++
          (runClient (runClient initState pre).1 post).2 ∧
      ((runClient (runClient initState pre).1 post).1.subscribed_topics).Nodup) := by
  constructor
  · intro ops
    have hinv : Inv (runClient initState ops).1 :=
      runClient_inv ops initState initState_inv
    have hinv2 : Inv (mqtt_on_disconnect (runClient initState ops).1) := hinv
    have hspec := mqtt_on_connect_spec (mqtt_on_disconnect (runClient initState ops).1) hinv2
    refine ⟨hspec.1, hspec.2.1, ?_⟩
    intro t ht
    have hall : t ∈ (runClient initState ops).1.all_mqtt_topics :=
      runClient_em_all ops initState t ht
    have hmem : t ∈ (mqtt_on_connect (mqtt_on_disconnect (runClient initState ops).1)).2 :=
      hspec.2.2 t (Or.inl hall)
    exact List.count_eq_one_of_mem hspec.2.1 hmem
  · intro pre post hpost
    have hinv : Inv (runClient initState pre).1 :=
      runClient_inv pre initState initState_inv
    refine ⟨runClient_subd_append post hpost _, ?_⟩
    exact (runClient_inv post _ hinv).2

/-- C9 witness: the theorem applied to a concrete run that subscribes two
topics, connects, then runs a connect-free stretch. -/
theorem C9_reconnect_replay_witness :
    ((mqtt_on_connect (mqtt_on_disconnect
        (runClient initState [ClientOp.subscribeTopics ["a", "b"], ClientOp.connect]).1)).2).count "a" = 1 ∧
    ((runClient (runClient initState [ClientOp.connect]).1
        [ClientOp.subscribeTopics ["a", "a"], ClientOp.disconnect]).1.subscribed_topics).Nodup :=
  ⟨(C9_reconnect_replay.1 [ClientOp.subscribeTopics ["a", "b"], ClientOp.connect]).2.2
      "a" (by decide),
    (C9_reconnect_replay.2 [ClientOp.connect]
      [ClientOp.subscribeTopics ["a", "a"], ClientOp.disconnect]
      (by decide)).2⟩

end RhasspyHermes
